import Mathlib

/-!
# Verification of the ftp-deploy state-diff synchronization engine

A shallow embedding of `src/main.ts` (the deploy orchestrator, its per-entry
transfer helpers, the include/exclude filter, and the content hasher), together
with a model of the diff engine (`HashDiff`, not present in the source tree)
taken from the specification.  Remote interaction is modelled by an abstract
`Client` that decides the outcome of every issued operation; running a piece of
the orchestrator yields the ordered list of issued remote effects plus the
error, if any, that aborted it.
-/

namespace FtpDeploy

/-- Type `Record` from `types.ts` as used by `main.ts`: one inventory entry.
`type` is "file" or "folder"; `size`/`hash` are present for files only. -/
inductive RecType where
  | file
  | folder
  deriving DecidableEq, Repr

structure Record where
  type : RecType
  name : String
  size : Option Nat
  hash : Option String
  deriving DecidableEq, Repr

/-- Type `IFileList` from `types.ts` as built in `getLocalFiles` (main.ts line 88):
the versioned, timestamped state document. -/
structure IFileList where
  description : String
  version : String
  generatedTime : Nat
  data : List Record
  deriving DecidableEq, Repr

/-- The fixed schema marker string `syncFileDescription` from `types.ts`. -/
def syncFileDescription : String := "DO NOT DELETE THIS FILE. This file is used to keep track of which files have been synced in the most recent deployment. If you delete this file a resync will need to be done (which can take a while) - read more: https://github.com/SamKirkland/FTP-Deploy-Action"

/-- An FTP error as observed by the catch blocks in `main.ts`: only its
numeric `code` is inspected. -/
structure FTPError where
  code : Nat
  deriving DecidableEq, Repr

/-- Constant `ErrorCode.FileNotFoundOrNoAccess` from `types.ts` (FTP reply 550),
the single tolerated error class on deletes. -/
def ErrorCode.FileNotFoundOrNoAccess : Nat := 550

/-- One remote (or local, for the pre-connect state write) effect issued by
the orchestrator, in issue order.  Effects record what was attempted;
outcomes are decided by the `Client`. -/
inductive Effect where
  | localWrite (name : String) (content : IFileList)
  | connect
  | clearDir
  | downloadState (name : String)
  | ensureDir (path : String)
  | uploadFrom (localPath : String) (remoteName : String)
  | remove (name : String)
  | removeDir (name : String)
  | cdup
  | closeClient
  deriving DecidableEq, Repr

/-- Abstract transfer client: for each operation the outcome it would return
(`none` = success, `some e` = the thrown `FTPError`); `download` is the
decoded state document, or `none` when fetch/JSON-decode fails. -/
structure Client where
  connect : Option FTPError
  clearWorkingDir : Option FTPError
  download : Option IFileList
  ensureDir : String → Option FTPError
  uploadFrom : String → String → Option FTPError
  remove : String → Option FTPError
  removeDir : String → Option FTPError
  cdup : Option FTPError
  deriving Inhabited

/-- The client for which every remote operation succeeds and no previous
state document is available. -/
def allOkClient : Client where
  connect := none
  clearWorkingDir := none
  download := none
  ensureDir := fun _ => none
  uploadFrom := fun _ _ => none
  remove := fun _ => none
  removeDir := fun _ => none
  cdup := none

/-- Result of running a fragment of the orchestrator: the effects it issued,
in order, and the error that aborted it (`none` when it completed). -/
structure RunOut where
  trace : List Effect
  err : Option FTPError
  deriving DecidableEq, Repr

/-- Sequencing with exception semantics (`await` then next statement):
if the first fragment threw, the second never runs. -/
def andThen (a b : RunOut) : RunOut :=
  match a.err with
  | some _ => a
  | none => ⟨a.trace ++ b.trace, b.err⟩

/-- A single awaited client call: the effect is issued, the client decides
the outcome. -/
def opRun (eff : Effect) (res : Option FTPError) : RunOut :=
  ⟨[eff], res⟩

/-- The fragment that issues nothing and succeeds. -/
def skipRun : RunOut := ⟨[], none⟩

/-- Type `IFilePath` from `types.ts`. -/
structure IFilePath where
  folders : Option (List String)
  file : Option String
  deriving DecidableEq, Repr

/-- JavaScript's `String.prototype.split` with a one-character separator,
on the character list: splitting the empty string yields one empty group,
and each separator occurrence starts a new group. -/
def splitOnChar (sep : Char) : List Char → List (List Char)
  | [] => [[]]
  | ch :: rest =>
    match splitOnChar sep rest with
    | [] => if ch = sep then [[], []] else [[ch]]
    | g :: gs => if ch = sep then [] :: g :: gs else (ch :: g) :: gs

/-- JavaScript's `fullPath.split("/")` as used by `getFileBreadcrumbs`. -/
def jsSplit (s : String) (sep : Char) : List String :=
  (splitOnChar sep s.data).map (fun cs => String.mk cs)

/-- Function `getFileBreadcrumbs` (main.ts line 128): split on "/", the last component
is the file (null when empty), the remaining nonempty components are the
folder chain (null when there are none). -/
def getFileBreadcrumbs (fullPath : String) : IFilePath :=
  let pathSplit := jsSplit fullPath '/'
  let file := (pathSplit.getLast?).getD ""
  let folders := pathSplit.dropLast.filter (fun s => s ≠ "")
  { folders := if folders.isEmpty then none else some folders
    file := if file = "" then none else some file }

/-- The loop body of `upDir` (main.ts line 150): `dirCount` sequential
`cdup` calls, stopping at the first failure. -/
def cdups (c : Client) : Nat → RunOut
  | 0 => skipRun
  | n + 1 => andThen (opRun .cdup c.cdup) (cdups c n)

/-- Function `upDir` (main.ts line 144): navigate up `dirCount` directories; a missing
count (folders was null) does nothing. -/
def upDir (c : Client) (dirCount : Option Nat) : RunOut :=
  match dirCount with
  | none => skipRun
  | some n => cdups c n

/-- The `ensureDir` step shared by `uploadFile`, `createFolder` and
`removeFile`: change/create the folder chain; a thrown error is fatal. -/
def ensureDirStep (c : Client) (folders : Option (List String)) : RunOut :=
  match folders with
  | none => skipRun
  | some fs => opRun (.ensureDir (String.intercalate "/" fs)) (c.ensureDir (String.intercalate "/" fs))

/-- The `uploadFrom` step of `uploadFile` (main.ts lines 176-180): skipped
when the breadcrumbs had no file component. -/
def uploadStep (c : Client) (filePath : String) (fo : Option String) : RunOut :=
  match fo with
  | none => skipRun
  | some f => opRun (.uploadFrom filePath f) (c.uploadFrom filePath f)

/-- Function `uploadFile` (main.ts line 162): ensure the folder chain, upload the file
under its basename, then navigate back up. -/
def uploadFile (c : Client) (filePath : String) : RunOut :=
  let path := getFileBreadcrumbs filePath
  andThen (ensureDirStep c path.folders)
    (andThen (uploadStep c filePath path.file)
      (upDir c (path.folders.map List.length)))

/-- Function `createFolder` (main.ts line 188): ensure the folder chain of
`folderPath + "/"`, then navigate back up. -/
def createFolder (c : Client) (folderPath : String) : RunOut :=
  let path := getFileBreadcrumbs (folderPath ++ "/")
  andThen (ensureDirStep c path.folders)
    (upDir c (path.folders.map List.length))

/-- The guarded `client.removeDir` call of `removeFolder` (main.ts lines
216-230): a thrown error with code `FileNotFoundOrNoAccess` is logged and
swallowed; any other error is rethrown. -/
def removeDirStep (c : Client) (p : String) : RunOut :=
  match c.removeDir p with
  | none => ⟨[.removeDir p], none⟩
  | some e =>
    if e.code = ErrorCode.FileNotFoundOrNoAccess then ⟨[.removeDir p], none⟩
    else ⟨[.removeDir p], some e⟩

/-- The guarded-removal block of `removeFolder` (main.ts lines 212-231):
skipped when the breadcrumbs had no folder components. -/
def removeFolderStep (c : Client) (folders : Option (List String)) : RunOut :=
  match folders with
  | none => skipRun
  | some fs => removeDirStep c (String.intercalate "/" fs ++ "/")

/-- Function `removeFolder` (main.ts line 207). -/
def removeFolder (c : Client) (folderPath : String) : RunOut :=
  let path := getFileBreadcrumbs (folderPath ++ "/")
  andThen (removeFolderStep c path.folders)
    (upDir c (path.folders.map List.length))

/-- The guarded `client.remove` call of `removeFile` (main.ts lines 253-269):
a thrown error with code `FileNotFoundOrNoAccess` is logged and swallowed;
any other error is rethrown. -/
def removeStep (c : Client) (f : String) : RunOut :=
  match c.remove f with
  | none => ⟨[.remove f], none⟩
  | some e =>
    if e.code = ErrorCode.FileNotFoundOrNoAccess then ⟨[.remove f], none⟩
    else ⟨[.remove f], some e⟩

/-- The guarded-removal block of `removeFile` (main.ts lines 253-270):
skipped when the breadcrumbs had no file component. -/
def removeFileStep (c : Client) (fo : Option String) : RunOut :=
  match fo with
  | none => skipRun
  | some f => removeStep c f

/-- Function `removeFile` (main.ts line 239): ensure the folder chain (fatal on
error), remove the basename (NotFound tolerated), navigate back up. -/
def removeFile (c : Client) (filePath : String) : RunOut :=
  let path := getFileBreadcrumbs filePath
  andThen (ensureDirStep c path.folders)
    (andThen (removeFileStep c path.file)
      (upDir c (path.folders.map List.length)))

/-- Run a fragment for each list element in order, stopping at the first
fatal error (a `for ... of` loop of awaited calls). -/
def forEachRun {α : Type} (f : α → RunOut) : List α → RunOut
  | [] => skipRun
  | x :: xs => andThen (f x) (forEachRun f xs)

/-- The edit script consumed by the orchestrator (`IDiff`'s result type):
the three entry lists and the three byte totals. -/
structure DiffResult where
  upload : List Record
  replace : List Record
  delete : List Record
  sizeUpload : Nat
  sizeReplace : Nat
  sizeDelete : Nat
  deriving DecidableEq, Repr

/-- Phases 1-5 of `deploy` (main.ts lines 357-381): create folders of
`upload`, upload files of `upload` (state document excluded), upload files of
`replace` (state document excluded), delete files of `delete`, delete folders
of `delete`. -/
def phases1to5 (c : Client) (diffs : DiffResult) (stateName : String) : RunOut :=
  andThen (forEachRun (fun f => createFolder c f.name)
      (diffs.upload.filter (fun item => item.type == RecType.folder)))
    (andThen (forEachRun (fun f => uploadFile c f.name)
        ((diffs.upload.filter (fun item => item.type == RecType.file)).filter
          (fun item => item.name != stateName)))
      (andThen (forEachRun (fun f => uploadFile c f.name)
          ((diffs.replace.filter (fun item => item.type == RecType.file)).filter
            (fun item => item.name != stateName)))
        (andThen (forEachRun (fun f => removeFile c f.name)
            (diffs.delete.filter (fun item => item.type == RecType.file)))
          (forEachRun (fun f => removeFolder c f.name)
            (diffs.delete.filter (fun item => item.type == RecType.folder))))))

/-- Phases 1-6 (main.ts lines 357-385): the five mutation phases followed by
the upload of the new state document
(`client.uploadFrom(args["state-name"], args["state-name"])`). -/
def syncPhases (c : Client) (diffs : DiffResult) (stateName : String) : RunOut :=
  andThen (phases1to5 c diffs stateName)
    (opRun (.uploadFrom stateName stateName) (c.uploadFrom stateName stateName))

/-- Modelled from the spec: `HashDiff.ts` is not in the source tree; §4.4
says the diff engine builds a path-keyed map for each inventory.  Lookup of a
path in an inventory's entry list. -/
def findRec (rs : List Record) (p : String) : Option Record :=
  rs.find? (fun r => r.name == p)

/-- Modelled from the spec: §4.4 iterates over the union of both key sets and
orders output by ascending path; the sorted deduplicated union of entry
names. -/
def diffKeys (prev curr : List Record) : List String :=
  ((curr.map Record.name) ++ (prev.map Record.name)).dedup.mergeSort (fun a b => a ≤ b)

/-- Modelled from the spec: the per-path classification of §4.4, returning
the contribution of one path as (toUpload, toReplace, toDelete). -/
def classifyPath (prev curr : List Record) (p : String) :
    List Record × List Record × List Record :=
  match findRec curr p, findRec prev p with
  | some cr, none => ([cr], [], [])
  | none, some pr => ([], [], [pr])
  | none, none => ([], [], [])
  | some cr, some pr =>
    match cr.type, pr.type with
    | RecType.file, RecType.file =>
      if cr.hash ≠ pr.hash ∨ cr.size ≠ pr.size then ([], [cr], []) else ([], [], [])
    | RecType.folder, RecType.folder => ([], [], [])
    | RecType.file, RecType.folder => ([cr], [], [pr])
    | RecType.folder, RecType.file => ([cr], [], [pr])

/-- Modelled from the spec: §4.4 computes byte totals "by summing `size` over
file entries in each category only" (folders contribute 0). -/
def fileSizes (rs : List Record) : Nat :=
  (rs.map (fun r => match r.type with
    | RecType.file => r.size.getD 0
    | RecType.folder => 0)).sum

/-- Modelled from the spec: `HashDiff.getDiffs(localFiles, serverFiles)` per
§4.4 — previous = the server-side list, current = the local list; classify
every path of the sorted key union and sum the byte totals. -/
def getDiffs (localFiles serverFiles : IFileList) : DiffResult :=
  let prev := serverFiles.data
  let curr := localFiles.data
  let trips := (diffKeys prev curr).map (classifyPath prev curr)
  let up := (trips.map (fun t => t.1)).flatten
  let rep := (trips.map (fun t => t.2.1)).flatten
  let del := (trips.map (fun t => t.2.2)).flatten
  { upload := up, replace := rep, delete := del
    sizeUpload := fileSizes up, sizeReplace := fileSizes rep, sizeDelete := fileSizes del }

/-- The empty server state built in the bootstrap catch
(main.ts lines 335-340). -/
def emptyServerState (now : Nat) : IFileList :=
  { description := syncFileDescription
    version := "1.0.0"
    generatedTime := now
    data := [] }

/-- The bootstrap block (main.ts lines 314-341): with the clean-slate flag,
wipe the working directory and — via the deliberately thrown error — land in
the catch that installs the empty state; otherwise download the state
document, and on any fetch/decode failure install the empty state. -/
def resolveServerFiles (c : Client) (cleanSlate : Bool) (stateName : String)
    (now : Nat) : IFileList × List Effect :=
  if cleanSlate then
    (emptyServerState now, [.clearDir])
  else
    match c.download with
    | some files => (files, [.downloadState stateName])
    | none => (emptyServerState now, [.downloadState stateName])

/-- Run configuration fields of `IFtpDeployArguments` used by `deploy` and
the filter ("state-name", "dangerous-clean-slate", include, exclude). -/
structure IFtpDeployArguments where
  stateName : String
  dangerousCleanSlate : Bool
  exclude : Option (List String)
  includePatterns : Option (List String)
  deriving Repr

/-- Outcome of one `deploy` run: the issued effects, whether a warning was
logged for a swallowed error, and the value the promise settles with. -/
structure DeployOut where
  trace : List Effect
  warned : Bool
  result : Except FTPError Unit
  deriving Repr

/-- Function `deploy` (main.ts line 279): write the fresh local inventory to the local
state file, connect, resolve the previous server state, diff, run the sync
phases, close.  Every fatal error is caught inside `deploy` (catch blocks at
lines 387, 398 and 407) and converted to a warn log; the error with code 553
additionally returns early, skipping `client.close()`. -/
def deploy (c : Client) (args : IFtpDeployArguments) (localFiles : IFileList)
    (now : Nat) : DeployOut :=
  let pre : List Effect := [.localWrite args.stateName localFiles]
  match c.connect with
  | some _ =>
    { trace := pre ++ [.connect, .closeClient], warned := true, result := .ok () }
  | none =>
    let sf := resolveServerFiles c args.dangerousCleanSlate args.stateName now
    let diffs := getDiffs localFiles sf.1
    let r := syncPhases c diffs args.stateName
    match r.err with
    | none =>
      { trace := pre ++ [.connect] ++ sf.2 ++ r.trace ++ [.closeClient]
        warned := false, result := .ok () }
    | some e =>
      if e.code = 553 then
        { trace := pre ++ [.connect] ++ sf.2 ++ r.trace
          warned := true, result := .ok () }
      else
        { trace := pre ++ [.connect] ++ sf.2 ++ r.trace ++ [.closeClient]
          warned := true, result := .ok () }

/-- Function `includeExcludeFilter` (main.ts line 36), with the glob matcher
`multiMatch` abstracted as `mm path patterns = list of matched patterns` (the
source only tests `length > 0`): an exclude match returns false immediately;
an include match returns true immediately; otherwise true. -/
def includeExcludeFilter (mm : String → List String → List String)
    (statPath : String) (args : IFtpDeployArguments) : Bool :=
  match args.exclude with
  | some ex =>
    if (mm statPath ex).length > 0 then false
    else
      match args.includePatterns with
      | some incl => if (mm statPath incl).length > 0 then true else true
      | none => true
  | none =>
    match args.includePatterns with
    | some incl => if (mm statPath incl).length > 0 then true else true
    | none => true

/-- The events a Node read stream can emit to `fileHash`'s handlers: a data
chunk, the end of the stream, or a read error. -/
inductive StreamEvent where
  | data (chunk : List Nat)
  | endEv
  | errorEv
  deriving DecidableEq, Repr

/-- How the promise returned by `fileHash` settles. -/
inductive PromiseOutcome (α : Type) where
  | resolved (v : α)
  | rejected (msg : String)
  | unsettled
  deriving DecidableEq, Repr

/-- The event loop of `fileHash` (main.ts lines 21-28): each "data" chunk is
fed to the hash; "end" resolves with the digest of everything fed so far.  No
"error" handler is installed, so a read error settles nothing: the promise
stays pending (and the stream stops, so no later "end" fires). -/
def runStream (digest : List Nat → String) (acc : List Nat) :
    List StreamEvent → PromiseOutcome String
  | [] => .unsettled
  | .data chunk :: rest => runStream digest (acc ++ chunk) rest
  | .endEv :: _ => .resolved (digest acc)
  | .errorEv :: _ => .unsettled

/-- Function `fileHash` (main.ts line 14), with the hash algorithm abstracted as
`digest` and the filesystem abstracted as `openRes`: `.error` when
`fs.createReadStream` throws synchronously (rejected with "calc fail" by the
catch), `.ok events` for the stream's event sequence otherwise. -/
def fileHash (digest : List Nat → String)
    (openRes : Except String (List StreamEvent)) : PromiseOutcome String :=
  match openRes with
  | .error _ => .rejected "calc fail"
  | .ok events => runStream digest [] events

/-- The data chunks a stream delivers before its first "end" or "error". -/
def chunksBeforeStop : List StreamEvent → List Nat
  | [] => []
  | .data chunk :: rest => chunk ++ chunksBeforeStop rest
  | .endEv :: _ => []
  | .errorEv :: _ => []

/-- Whether the first non-data event of the stream is "end" (the only way the
promise resolves). -/
def endsCleanly : List StreamEvent → Bool
  | [] => false
  | .data _ :: rest => endsCleanly rest
  | .endEv :: _ => true
  | .errorEv :: _ => false

/-! ## Canonical effect plans

For each per-entry helper, the full sequence of effects it issues when every
remote operation succeeds.  Any client's actual trace is a prefix of the
plan, and equals it when the helper completes without a fatal error. -/

/-- The effect of an `ensureDirStep`. -/
def planEnsureDir (folders : Option (List String)) : List Effect :=
  match folders with
  | none => []
  | some fs => [.ensureDir (String.intercalate "/" fs)]

/-- The effect of an `uploadStep`. -/
def planUploadStep (fp : String) (fo : Option String) : List Effect :=
  match fo with
  | none => []
  | some f => [.uploadFrom fp f]

/-- The effect of a `removeFileStep`. -/
def planRemoveFileStep (fo : Option String) : List Effect :=
  match fo with
  | none => []
  | some f => [.remove f]

/-- The effect of a `removeFolderStep`. -/
def planRemoveFolderStep (folders : Option (List String)) : List Effect :=
  match folders with
  | none => []
  | some fs => [.removeDir (String.intercalate "/" fs ++ "/")]

/-- The cdup effects of an `upDir`. -/
def planUpDir (d : Option Nat) : List Effect :=
  List.replicate (d.getD 0) .cdup

/-- All effects `uploadFile` issues on success. -/
def planUploadFile (fp : String) : List Effect :=
  let path := getFileBreadcrumbs fp
  planEnsureDir path.folders ++
    (planUploadStep fp path.file ++ planUpDir (path.folders.map List.length))

/-- All effects `createFolder` issues on success. -/
def planCreateFolder (fp : String) : List Effect :=
  let path := getFileBreadcrumbs (fp ++ "/")
  planEnsureDir path.folders ++ planUpDir (path.folders.map List.length)

/-- All effects `removeFile` issues on success. -/
def planRemoveFile (fp : String) : List Effect :=
  let path := getFileBreadcrumbs fp
  planEnsureDir path.folders ++
    (planRemoveFileStep path.file ++ planUpDir (path.folders.map List.length))

/-- All effects `removeFolder` issues on success. -/
def planRemoveFolder (fp : String) : List Effect :=
  let path := getFileBreadcrumbs (fp ++ "/")
  planRemoveFolderStep path.folders ++ planUpDir (path.folders.map List.length)

/-- The full mutation plan of phases 1-5, in phase order. -/
def phasesPlan (diffs : DiffResult) (stateName : String) : List Effect :=
  ((diffs.upload.filter (fun item => item.type == RecType.folder)).map
      (fun f => planCreateFolder f.name)).flatten ++
  ((((diffs.upload.filter (fun item => item.type == RecType.file)).filter
      (fun item => item.name != stateName)).map
      (fun f => planUploadFile f.name)).flatten ++
  ((((diffs.replace.filter (fun item => item.type == RecType.file)).filter
      (fun item => item.name != stateName)).map
      (fun f => planUploadFile f.name)).flatten ++
  (((diffs.delete.filter (fun item => item.type == RecType.file)).map
      (fun f => planRemoveFile f.name)).flatten ++
  ((diffs.delete.filter (fun item => item.type == RecType.folder)).map
      (fun f => planRemoveFolder f.name)).flatten)))

/-- The full effect plan of phases 1-6: the mutation plan followed by the
state-document upload. -/
def syncPlan (diffs : DiffResult) (sn : String) : List Effect :=
  phasesPlan diffs sn ++ [.uploadFrom sn sn]

/-- A client on which every remote operation the sync phases issue succeeds. -/
def AllOps (c : Client) : Prop :=
  (∀ p, c.ensureDir p = none) ∧ (∀ a b, c.uploadFrom a b = none) ∧
  (∀ p, c.remove p = none) ∧ (∀ p, c.removeDir p = none) ∧ c.cdup = none

/-- A client equal to `allOkClient` except that uploading the local file
"a.txt" fails with a permission error (code 500). -/
def failUploadClient : Client :=
  { allOkClient with uploadFrom := fun a _ => if a = "a.txt" then some ⟨500⟩ else none }

/-- An edit script that uploads the single new file "a.txt". -/
def failDiff : DiffResult :=
  ⟨[⟨RecType.file, "a.txt", some 3, some "h"⟩], [], [], 3, 0, 0⟩

/-- An edit script exercising all five phases: one new folder with a file in
it, one replaced file, one deleted file. -/
def sampleDiff : DiffResult :=
  ⟨[⟨RecType.folder, "docs", none, none⟩, ⟨RecType.file, "docs/a.txt", some 3, some "h1"⟩],
   [⟨RecType.file, "b.txt", some 4, some "h2"⟩],
   [⟨RecType.file, "c.txt", some 5, some "h3"⟩], 7, 4, 5⟩

/-- A client on which every delete reports "file not found or no access"
(FTP reply 550). -/
def notFoundClient : Client :=
  { allOkClient with remove := fun _ => some ⟨550⟩ }

/-- A client on which removing a directory fails with an unrelated error
(FTP reply 553). -/
def otherErrClient : Client :=
  { allOkClient with removeDir := fun _ => some ⟨553⟩ }

/-- A client whose connection attempt is refused (FTP reply 421). -/
def failConnectClient : Client :=
  { allOkClient with connect := some ⟨421⟩ }

/-- A sample run configuration. -/
def sampleArgs : IFtpDeployArguments :=
  ⟨"state.json", false, none, none⟩

/-- A sample freshly built local inventory. -/
def sampleLocal : IFileList :=
  ⟨syncFileDescription, "1.0.0", 5, [⟨RecType.file, "a.txt", some 3, some "h1"⟩]⟩

/-- A client-indexed fragment follows a plan: it always issues a prefix of
the plan, and issues exactly the plan when it completes without error. -/
def Follows (f : Client → RunOut) (plan : List Effect) : Prop :=
  ∀ c, (f c).trace <+: plan ∧ ((f c).err = none → (f c).trace = plan)

theorem follows_skip : Follows (fun _ => skipRun) [] := by
  intro c
  exact ⟨List.prefix_refl _, fun _ => rfl⟩

theorem follows_op (eff : Effect) (sel : Client → Option FTPError) :
    Follows (fun c => opRun eff (sel c)) [eff] := by
  intro c
  exact ⟨List.prefix_refl _, fun _ => rfl⟩

theorem prefix_append_left {α : Type} {l₁ l₂ p : List α} (h : l₁ <+: l₂) :
    p ++ l₁ <+: p ++ l₂ := by
  obtain ⟨t, ht⟩ := h
  exact ⟨t, by rw [List.append_assoc, ht]⟩

theorem andThen_err_some {a b : RunOut} {e : FTPError} (h : a.err = some e) :
    andThen a b = a := by
  simp [andThen, h]

theorem andThen_err_none {a b : RunOut} (h : a.err = none) :
    andThen a b = ⟨a.trace ++ b.trace, b.err⟩ := by
  simp [andThen, h]

theorem follows_andThen {A B : Client → RunOut} {pa pb : List Effect}
    (hA : Follows A pa) (hB : Follows B pb) :
    Follows (fun c => andThen (A c) (B c)) (pa ++ pb) := by
  intro c
  show (andThen (A c) (B c)).trace <+: pa ++ pb ∧
    ((andThen (A c) (B c)).err = none → (andThen (A c) (B c)).trace = pa ++ pb)
  rcases hA c with ⟨hApre, hAeq⟩
  rcases hB c with ⟨hBpre, hBeq⟩
  cases hAe : (A c).err with
  | some e =>
    rw [andThen_err_some hAe]
    constructor
    · exact hApre.trans (List.prefix_append pa pb)
    · intro h
      rw [hAe] at h
      simp at h
  | none =>
    have htr := hAeq hAe
    rw [andThen_err_none hAe]
    constructor
    · show (A c).trace ++ (B c).trace <+: pa ++ pb
      rw [htr]
      exact prefix_append_left hBpre
    · intro h
      show (A c).trace ++ (B c).trace = pa ++ pb
      rw [htr, hBeq h]

theorem follows_cdups (n : Nat) :
    Follows (fun c => cdups c n) (List.replicate n Effect.cdup) := by
  induction n with
  | zero => exact follows_skip
  | succ n ih =>
    have h := follows_andThen (follows_op Effect.cdup Client.cdup) ih
    intro c
    simpa [cdups, List.replicate_succ] using h c

theorem follows_upDir (d : Option Nat) :
    Follows (fun c => upDir c d) (planUpDir d) := by
  cases d with
  | none => intro c; simpa [upDir, planUpDir] using follows_skip c
  | some n => intro c; simpa [upDir, planUpDir] using follows_cdups n c

theorem follows_ensureDirStep (folders : Option (List String)) :
    Follows (fun c => ensureDirStep c folders) (planEnsureDir folders) := by
  cases folders with
  | none => intro c; simpa [ensureDirStep, planEnsureDir] using follows_skip c
  | some fs =>
    intro c
    simpa [ensureDirStep, planEnsureDir] using
      (follows_op (Effect.ensureDir (String.intercalate "/" fs))
        (fun c => c.ensureDir (String.intercalate "/" fs))) c

theorem removeStep_trace (c : Client) (f : String) :
    (removeStep c f).trace = [Effect.remove f] := by
  cases h : c.remove f with
  | none => simp [removeStep, h]
  | some e =>
    by_cases hc : e.code = ErrorCode.FileNotFoundOrNoAccess <;> simp [removeStep, h, hc]

theorem follows_removeStep (f : String) :
    Follows (fun c => removeStep c f) [Effect.remove f] := by
  intro c
  show (removeStep c f).trace <+: [Effect.remove f] ∧
    ((removeStep c f).err = none → (removeStep c f).trace = [Effect.remove f])
  rw [removeStep_trace c f]
  exact ⟨List.prefix_refl _, fun _ => rfl⟩

theorem removeDirStep_trace (c : Client) (p : String) :
    (removeDirStep c p).trace = [Effect.removeDir p] := by
  cases h : c.removeDir p with
  | none => simp [removeDirStep, h]
  | some e =>
    by_cases hc : e.code = ErrorCode.FileNotFoundOrNoAccess <;> simp [removeDirStep, h, hc]

theorem follows_removeDirStep (p : String) :
    Follows (fun c => removeDirStep c p) [Effect.removeDir p] := by
  intro c
  show (removeDirStep c p).trace <+: [Effect.removeDir p] ∧
    ((removeDirStep c p).err = none → (removeDirStep c p).trace = [Effect.removeDir p])
  rw [removeDirStep_trace c p]
  exact ⟨List.prefix_refl _, fun _ => rfl⟩

theorem follows_uploadStep (fp : String) (fo : Option String) :
    Follows (fun c => uploadStep c fp fo) (planUploadStep fp fo) := by
  cases fo with
  | none => intro c; simpa [uploadStep, planUploadStep] using follows_skip c
  | some f =>
    intro c
    simpa [uploadStep, planUploadStep] using
      (follows_op (Effect.uploadFrom fp f) (fun c => c.uploadFrom fp f)) c

theorem follows_removeFileStep (fo : Option String) :
    Follows (fun c => removeFileStep c fo) (planRemoveFileStep fo) := by
  cases fo with
  | none => intro c; simpa [removeFileStep, planRemoveFileStep] using follows_skip c
  | some f =>
    intro c
    simpa [removeFileStep, planRemoveFileStep] using follows_removeStep f c

theorem follows_removeFolderStep (folders : Option (List String)) :
    Follows (fun c => removeFolderStep c folders) (planRemoveFolderStep folders) := by
  cases folders with
  | none => intro c; simpa [removeFolderStep, planRemoveFolderStep] using follows_skip c
  | some fs =>
    intro c
    simpa [removeFolderStep, planRemoveFolderStep] using
      follows_removeDirStep (String.intercalate "/" fs ++ "/") c

theorem follows_uploadFile (fp : String) :
    Follows (fun c => uploadFile c fp) (planUploadFile fp) := by
  have h := follows_andThen (follows_ensureDirStep (getFileBreadcrumbs fp).folders)
    (follows_andThen (follows_uploadStep fp (getFileBreadcrumbs fp).file)
      (follows_upDir ((getFileBreadcrumbs fp).folders.map List.length)))
  intro c
  simpa [uploadFile, planUploadFile] using h c

theorem follows_createFolder (fp : String) :
    Follows (fun c => createFolder c fp) (planCreateFolder fp) := by
  have h := follows_andThen (follows_ensureDirStep (getFileBreadcrumbs (fp ++ "/")).folders)
    (follows_upDir ((getFileBreadcrumbs (fp ++ "/")).folders.map List.length))
  intro c
  simpa [createFolder, planCreateFolder] using h c

theorem follows_removeFile (fp : String) :
    Follows (fun c => removeFile c fp) (planRemoveFile fp) := by
  have h := follows_andThen (follows_ensureDirStep (getFileBreadcrumbs fp).folders)
    (follows_andThen (follows_removeFileStep (getFileBreadcrumbs fp).file)
      (follows_upDir ((getFileBreadcrumbs fp).folders.map List.length)))
  intro c
  simpa [removeFile, planRemoveFile] using h c

theorem follows_removeFolder (fp : String) :
    Follows (fun c => removeFolder c fp) (planRemoveFolder fp) := by
  have h := follows_andThen (follows_removeFolderStep (getFileBreadcrumbs (fp ++ "/")).folders)
    (follows_upDir ((getFileBreadcrumbs (fp ++ "/")).folders.map List.length))
  intro c
  simpa [removeFolder, planRemoveFolder] using h c

theorem follows_forEach {α : Type} {f : Client → α → RunOut} {plan : α → List Effect}
    (h : ∀ x, Follows (fun c => f c x) (plan x)) (xs : List α) :
    Follows (fun c => forEachRun (f c) xs) ((xs.map plan).flatten) := by
  induction xs with
  | nil => intro c; simpa [forEachRun] using follows_skip c
  | cons x xs ih =>
    intro c
    have hc := follows_andThen (h x) ih c
    simpa [forEachRun] using hc

theorem follows_phases1to5 (diffs : DiffResult) (sn : String) :
    Follows (fun c => phases1to5 c diffs sn) (phasesPlan diffs sn) := by
  have h1 := follows_forEach (fun x : Record => follows_createFolder x.name)
    (diffs.upload.filter (fun item => item.type == RecType.folder))
  have h2 := follows_forEach (fun x : Record => follows_uploadFile x.name)
    ((diffs.upload.filter (fun item => item.type == RecType.file)).filter
      (fun item => item.name != sn))
  have h3 := follows_forEach (fun x : Record => follows_uploadFile x.name)
    ((diffs.replace.filter (fun item => item.type == RecType.file)).filter
      (fun item => item.name != sn))
  have h4 := follows_forEach (fun x : Record => follows_removeFile x.name)
    (diffs.delete.filter (fun item => item.type == RecType.file))
  have h5 := follows_forEach (fun x : Record => follows_removeFolder x.name)
    (diffs.delete.filter (fun item => item.type == RecType.folder))
  have h := follows_andThen h1 (follows_andThen h2 (follows_andThen h3 (follows_andThen h4 h5)))
  intro c
  simpa [phases1to5, phasesPlan] using h c

theorem follows_syncPhases (diffs : DiffResult) (sn : String) :
    Follows (fun c => syncPhases c diffs sn) (syncPlan diffs sn) := by
  have h := follows_andThen (follows_phases1to5 diffs sn)
    (follows_op (Effect.uploadFrom sn sn) (fun c => c.uploadFrom sn sn))
  intro c
  simpa [syncPhases, syncPlan] using h c

/-! ## Success of the phases under an all-succeeding client -/

theorem andThen_err (a b : RunOut) :
    (andThen a b).err = none ↔ (a.err = none ∧ b.err = none) := by
  cases h : a.err <;> simp [andThen, h]

theorem opRun_err (eff : Effect) (res : Option FTPError) : (opRun eff res).err = res := rfl

theorem cdups_err_none {c : Client} (h : c.cdup = none) (n : Nat) :
    (cdups c n).err = none := by
  induction n with
  | zero => rfl
  | succ n ih =>
    exact (andThen_err _ _).mpr ⟨h, ih⟩

theorem upDir_err_none {c : Client} (h : c.cdup = none) (d : Option Nat) :
    (upDir c d).err = none := by
  cases d with
  | none => rfl
  | some n => exact cdups_err_none h n

theorem ensureDirStep_err_none {c : Client} (h : ∀ p, c.ensureDir p = none)
    (folders : Option (List String)) : (ensureDirStep c folders).err = none := by
  cases folders with
  | none => rfl
  | some fs => exact h _

theorem uploadStep_err_none {c : Client} (h : ∀ a b, c.uploadFrom a b = none)
    (fp : String) (fo : Option String) : (uploadStep c fp fo).err = none := by
  cases fo with
  | none => rfl
  | some f => exact h _ _

theorem removeStep_err_none {c : Client} {f : String} (h : c.remove f = none) :
    (removeStep c f).err = none := by
  simp [removeStep, h]

theorem removeFileStep_err_none {c : Client} (h : ∀ p, c.remove p = none)
    (fo : Option String) : (removeFileStep c fo).err = none := by
  cases fo with
  | none => rfl
  | some f => exact removeStep_err_none (h f)

theorem removeDirStep_err_none {c : Client} {p : String} (h : c.removeDir p = none) :
    (removeDirStep c p).err = none := by
  simp [removeDirStep, h]

theorem removeFolderStep_err_none {c : Client} (h : ∀ p, c.removeDir p = none)
    (folders : Option (List String)) : (removeFolderStep c folders).err = none := by
  cases folders with
  | none => rfl
  | some fs => exact removeDirStep_err_none (h _)

theorem uploadFile_err_none {c : Client} (h : AllOps c) (fp : String) :
    (uploadFile c fp).err = none := by
  obtain ⟨hens, hup, _, _, hcd⟩ := h
  exact (andThen_err _ _).mpr ⟨ensureDirStep_err_none hens _,
    (andThen_err _ _).mpr ⟨uploadStep_err_none hup fp _, upDir_err_none hcd _⟩⟩

theorem createFolder_err_none {c : Client} (h : AllOps c) (fp : String) :
    (createFolder c fp).err = none := by
  obtain ⟨hens, _, _, _, hcd⟩ := h
  exact (andThen_err _ _).mpr ⟨ensureDirStep_err_none hens _, upDir_err_none hcd _⟩

theorem removeFile_err_none {c : Client} (h : AllOps c) (fp : String) :
    (removeFile c fp).err = none := by
  obtain ⟨hens, _, hrem, _, hcd⟩ := h
  exact (andThen_err _ _).mpr ⟨ensureDirStep_err_none hens _,
    (andThen_err _ _).mpr ⟨removeFileStep_err_none hrem _, upDir_err_none hcd _⟩⟩

theorem removeFolder_err_none {c : Client} (h : AllOps c) (fp : String) :
    (removeFolder c fp).err = none := by
  obtain ⟨_, _, _, hrdir, hcd⟩ := h
  exact (andThen_err _ _).mpr ⟨removeFolderStep_err_none hrdir _, upDir_err_none hcd _⟩

theorem forEachRun_err_none {α : Type} {f : α → RunOut} {xs : List α}
    (h : ∀ x ∈ xs, (f x).err = none) : (forEachRun f xs).err = none := by
  induction xs with
  | nil => rfl
  | cons x xs ih =>
    exact (andThen_err _ _).mpr
      ⟨h x (List.mem_cons_self x xs), ih (fun y hy => h y (List.mem_cons_of_mem x hy))⟩

theorem phases1to5_err_none {c : Client} (h : AllOps c) (diffs : DiffResult)
    (sn : String) : (phases1to5 c diffs sn).err = none := by
  refine (andThen_err _ _).mpr ⟨?_, (andThen_err _ _).mpr ⟨?_, (andThen_err _ _).mpr
    ⟨?_, (andThen_err _ _).mpr ⟨?_, ?_⟩⟩⟩⟩
  · exact forEachRun_err_none (fun x _ => createFolder_err_none h x.name)
  · exact forEachRun_err_none (fun x _ => uploadFile_err_none h x.name)
  · exact forEachRun_err_none (fun x _ => uploadFile_err_none h x.name)
  · exact forEachRun_err_none (fun x _ => removeFile_err_none h x.name)
  · exact forEachRun_err_none (fun x _ => removeFolder_err_none h x.name)

theorem syncPhases_err_none {c : Client} (h : AllOps c) (diffs : DiffResult)
    (sn : String) : (syncPhases c diffs sn).err = none :=
  (andThen_err _ _).mpr ⟨phases1to5_err_none h diffs sn, h.2.1 sn sn⟩

/-! ## What effects the mutation phases can contain -/

theorem uploadFrom_not_mem_planUpDir (a b : String) (d : Option Nat) :
    Effect.uploadFrom a b ∉ planUpDir d := by
  simp [planUpDir, List.mem_replicate]

theorem uploadFrom_not_mem_planEnsureDir (a b : String) (folders : Option (List String)) :
    Effect.uploadFrom a b ∉ planEnsureDir folders := by
  cases folders <;> simp [planEnsureDir]

theorem uploadFrom_not_mem_planCreateFolder (a b fp : String) :
    Effect.uploadFrom a b ∉ planCreateFolder fp := by
  intro hmem
  simp only [planCreateFolder, List.mem_append] at hmem
  rcases hmem with h | h
  · exact uploadFrom_not_mem_planEnsureDir a b _ h
  · exact uploadFrom_not_mem_planUpDir a b _ h

theorem uploadFrom_mem_planUploadFile {a b fp : String}
    (hmem : Effect.uploadFrom a b ∈ planUploadFile fp) : a = fp := by
  simp only [planUploadFile, List.mem_append] at hmem
  rcases hmem with h | h | h
  · exact absurd h (uploadFrom_not_mem_planEnsureDir a b _)
  · cases hf : (getFileBreadcrumbs fp).file with
    | none => rw [hf] at h; simp [planUploadStep] at h
    | some f =>
      rw [hf] at h
      simp only [planUploadStep, List.mem_singleton, Effect.uploadFrom.injEq] at h
      exact h.1
  · exact absurd h (uploadFrom_not_mem_planUpDir a b _)

theorem uploadFrom_not_mem_planRemoveFile (a b fp : String) :
    Effect.uploadFrom a b ∉ planRemoveFile fp := by
  intro hmem
  simp only [planRemoveFile, List.mem_append] at hmem
  rcases hmem with h | h | h
  · exact uploadFrom_not_mem_planEnsureDir a b _ h
  · cases hf : (getFileBreadcrumbs fp).file with
    | none => rw [hf] at h; simp [planRemoveFileStep] at h
    | some f => rw [hf] at h; simp [planRemoveFileStep] at h
  · exact uploadFrom_not_mem_planUpDir a b _ h

theorem uploadFrom_not_mem_planRemoveFolder (a b fp : String) :
    Effect.uploadFrom a b ∉ planRemoveFolder fp := by
  intro hmem
  simp only [planRemoveFolder, List.mem_append] at hmem
  rcases hmem with h | h
  · cases hf : (getFileBreadcrumbs (fp ++ "/")).folders with
    | none => rw [hf] at h; simp [planRemoveFolderStep] at h
    | some fs => rw [hf] at h; simp [planRemoveFolderStep] at h
  · exact uploadFrom_not_mem_planUpDir a b _ h

/-- No upload of the state-document path is planned anywhere in phases 1-5:
the upload and replace passes filter it out, and the delete passes issue no
`uploadFrom` at all. -/
theorem uploadFrom_state_not_mem_phasesPlan (diffs : DiffResult) (sn b : String) :
    Effect.uploadFrom sn b ∉ phasesPlan diffs sn := by
  intro hmem
  simp only [phasesPlan, List.mem_append] at hmem
  rcases hmem with h | h | h | h | h
  · rcases List.mem_flatten.mp h with ⟨l, hl, hx⟩
    rcases List.mem_map.mp hl with ⟨x, _, rfl⟩
    exact uploadFrom_not_mem_planCreateFolder sn b x.name hx
  · rcases List.mem_flatten.mp h with ⟨l, hl, hx⟩
    rcases List.mem_map.mp hl with ⟨x, hxmem, rfl⟩
    have hname : ¬ x.name = sn := by
      have hfilt := (List.mem_filter.mp hxmem).2
      simpa using hfilt
    exact hname (uploadFrom_mem_planUploadFile hx).symm
  · rcases List.mem_flatten.mp h with ⟨l, hl, hx⟩
    rcases List.mem_map.mp hl with ⟨x, hxmem, rfl⟩
    have hname : ¬ x.name = sn := by
      have hfilt := (List.mem_filter.mp hxmem).2
      simpa using hfilt
    exact hname (uploadFrom_mem_planUploadFile hx).symm
  · rcases List.mem_flatten.mp h with ⟨l, hl, hx⟩
    rcases List.mem_map.mp hl with ⟨x, _, rfl⟩
    exact uploadFrom_not_mem_planRemoveFile sn b x.name hx
  · rcases List.mem_flatten.mp h with ⟨l, hl, hx⟩
    rcases List.mem_map.mp hl with ⟨x, _, rfl⟩
    exact uploadFrom_not_mem_planRemoveFolder sn b x.name hx

/-- Under any client, phases 1-5 never issue an upload whose local path is
the state-document name. -/
theorem uploadFrom_state_not_mem_phases_trace (c : Client) (diffs : DiffResult)
    (sn b : String) : Effect.uploadFrom sn b ∉ (phases1to5 c diffs sn).trace := by
  intro hmem
  have hpre := (follows_phases1to5 diffs sn c).1
  exact uploadFrom_state_not_mem_phasesPlan diffs sn b (hpre.subset hmem)

/-! ## Claim theorems: phase order, state-document framing, fatal stop -/

/-- C1: For every edit script, the orchestrator applies remote mutations in
the fixed phase order — folder creates of `toUpload`, file uploads of
`toUpload`, file uploads of `toReplace`, file deletes of `toDelete`, folder
deletes of `toDelete`, exactly the order `phasesPlan` spells out — and when
every operation succeeds the issued trace is that plan followed by the
state-document upload; if phases 1-5 abort with a fatal error, the
state-document upload is never issued. -/
theorem deploy_phase_order (diffs : DiffResult) (sn : String) (c : Client) :
    (AllOps c →
      (syncPhases c diffs sn).trace = phasesPlan diffs sn ++ [Effect.uploadFrom sn sn] ∧
      (syncPhases c diffs sn).err = none) ∧
    (∀ e, (phases1to5 c diffs sn).err = some e →
      Effect.uploadFrom sn sn ∉ (syncPhases c diffs sn).trace) := by
  constructor
  · intro h
    have herr := syncPhases_err_none h diffs sn
    have htr := (follows_syncPhases diffs sn c).2 herr
    exact ⟨by simpa [syncPlan] using htr, herr⟩
  · intro e he hmem
    rw [syncPhases, andThen_err_some he] at hmem
    exact uploadFrom_state_not_mem_phases_trace c diffs sn sn hmem

/-- Witness for C1: the sample edit script against the all-succeeding client
runs all six phases in order with no error. -/
theorem deploy_phase_order_witness :
    (syncPhases allOkClient sampleDiff "state.json").trace =
      phasesPlan sampleDiff "state.json" ++
        [Effect.uploadFrom "state.json" "state.json"] ∧
    (syncPhases allOkClient sampleDiff "state.json").err = none :=
  (deploy_phase_order sampleDiff "state.json" allOkClient).1
    ⟨fun _ => rfl, fun _ _ => rfl, fun _ => rfl, fun _ => rfl, rfl⟩

/-- C2 counterexample: the delete passes of phases 1-5 do not filter out the
state-document name — an edit script whose `toDelete` contains the file
"sync-state.json" makes phase 4 issue a remote delete of exactly that path
even though it is the configured state-document name. -/
theorem state_doc_delete_counterexample :
    Effect.remove "sync-state.json" ∈
      (phases1to5 allOkClient
        ⟨[], [], [⟨RecType.file, "sync-state.json", some 1, some "h"⟩], 0, 0, 1⟩
        "sync-state.json").trace := by decide

/-- C2 (amended): phases 1-5 never issue an upload of the entry whose path
equals the configured state-document name — the upload and replace passes
filter it out — but the delete passes do not exclude it; only the
upload/replace exclusion holds for every edit script. -/
theorem state_doc_not_uploaded_phases1to5 (c : Client) (diffs : DiffResult)
    (sn b : String) : Effect.uploadFrom sn b ∉ (phases1to5 c diffs sn).trace :=
  uploadFrom_state_not_mem_phases_trace c diffs sn b

/-- C5: if any mutation of phases 1-5 fails fatally, the orchestrator's trace
stops at the failing phase (no state-document upload is issued, phase 6 is
never reached), and everything issued is a prefix of the full mutation plan —
the operations already applied are left in place, with no rollback issued. -/
theorem deploy_fatal_stop (diffs : DiffResult) (sn : String) (c : Client)
    (e : FTPError) (he : (phases1to5 c diffs sn).err = some e) :
    (syncPhases c diffs sn).trace = (phases1to5 c diffs sn).trace ∧
    (∀ b, Effect.uploadFrom sn b ∉ (syncPhases c diffs sn).trace) ∧
    (phases1to5 c diffs sn).trace <+: phasesPlan diffs sn := by
  have heq : syncPhases c diffs sn = phases1to5 c diffs sn := by
    rw [syncPhases, andThen_err_some he]
  refine ⟨by rw [heq], ?_, (follows_phases1to5 diffs sn c).1⟩
  intro b
  rw [heq]
  exact uploadFrom_state_not_mem_phases_trace c diffs sn b

/-- Witness for C5: a failed upload of "a.txt" aborts the run before the
state-document upload. -/
theorem deploy_fatal_stop_witness :
    (syncPhases failUploadClient failDiff "state.json").trace =
      (phases1to5 failUploadClient failDiff "state.json").trace ∧
    (∀ b, Effect.uploadFrom "state.json" b ∉
      (syncPhases failUploadClient failDiff "state.json").trace) ∧
    (phases1to5 failUploadClient failDiff "state.json").trace <+:
      phasesPlan failDiff "state.json" :=
  deploy_fatal_stop failDiff "state.json" failUploadClient ⟨500⟩ (by decide)

theorem andThen_err_val {a : RunOut} (b : RunOut) (h : a.err = none) :
    (andThen a b).err = b.err := by
  rw [andThen_err_none h]

theorem removeStep_err_eq {c : Client} {f : String} {e : FTPError}
    (h : c.remove f = some e) :
    (removeStep c f).err =
      (if e.code = ErrorCode.FileNotFoundOrNoAccess then none else some e) := by
  by_cases h550 : e.code = ErrorCode.FileNotFoundOrNoAccess <;>
    simp [removeStep, h, h550]

theorem removeDirStep_err_eq {c : Client} {p : String} {e : FTPError}
    (h : c.removeDir p = some e) :
    (removeDirStep c p).err =
      (if e.code = ErrorCode.FileNotFoundOrNoAccess then none else some e) := by
  by_cases h550 : e.code = ErrorCode.FileNotFoundOrNoAccess <;>
    simp [removeDirStep, h, h550]

/-- C4: on every file or folder delete issued by the orchestrator, an error
whose code is `FileNotFoundOrNoAccess` is tolerated — the operation completes
as a success and the run continues — while a delete error of any other class
is rethrown and aborts the operation with exactly that error. -/
theorem delete_notFound_tolerated (c : Client)
    (hens : ∀ p, c.ensureDir p = none) (hcd : c.cdup = none) :
    (∀ fp f e, (getFileBreadcrumbs fp).file = some f → c.remove f = some e →
      (removeFile c fp).err =
        (if e.code = ErrorCode.FileNotFoundOrNoAccess then none else some e)) ∧
    (∀ fp fs e, (getFileBreadcrumbs (fp ++ "/")).folders = some fs →
      c.removeDir (String.intercalate "/" fs ++ "/") = some e →
      (removeFolder c fp).err =
        (if e.code = ErrorCode.FileNotFoundOrNoAccess then none else some e)) := by
  constructor
  · intro fp f e hf hrem
    have h1 : (ensureDirStep c (getFileBreadcrumbs fp).folders).err = none :=
      ensureDirStep_err_none hens _
    have hstep : (removeFileStep c (getFileBreadcrumbs fp).file).err =
        (if e.code = ErrorCode.FileNotFoundOrNoAccess then none else some e) := by
      rw [hf]
      exact removeStep_err_eq hrem
    show (andThen (ensureDirStep c (getFileBreadcrumbs fp).folders)
      (andThen (removeFileStep c (getFileBreadcrumbs fp).file)
        (upDir c ((getFileBreadcrumbs fp).folders.map List.length)))).err = _
    rw [andThen_err_val _ h1]
    by_cases h550 : e.code = ErrorCode.FileNotFoundOrNoAccess
    · rw [andThen_err_val _ (by rw [hstep, if_pos h550])]
      rw [if_pos h550]
      exact upDir_err_none hcd _
    · rw [if_neg h550] at hstep ⊢
      have : (andThen (removeFileStep c (getFileBreadcrumbs fp).file)
          (upDir c ((getFileBreadcrumbs fp).folders.map List.length))) =
          removeFileStep c (getFileBreadcrumbs fp).file := andThen_err_some hstep
      rw [this, hstep]
  · intro fp fs e hfs hrdir
    have hstep : (removeFolderStep c (getFileBreadcrumbs (fp ++ "/")).folders).err =
        (if e.code = ErrorCode.FileNotFoundOrNoAccess then none else some e) := by
      rw [hfs]
      exact removeDirStep_err_eq hrdir
    show (andThen (removeFolderStep c (getFileBreadcrumbs (fp ++ "/")).folders)
      (upDir c ((getFileBreadcrumbs (fp ++ "/")).folders.map List.length))).err = _
    by_cases h550 : e.code = ErrorCode.FileNotFoundOrNoAccess
    · rw [andThen_err_val _ (by rw [hstep, if_pos h550])]
      rw [if_pos h550]
      exact upDir_err_none hcd _
    · rw [if_neg h550] at hstep ⊢
      rw [andThen_err_some hstep, hstep]

/-- Witness for C4: a 550 on deleting the file "c.txt" is tolerated, while a
553 on deleting the folder "docs" is fatal with exactly that error. -/
theorem delete_notFound_tolerated_witness :
    (removeFile notFoundClient "c.txt").err = none ∧
    (removeFolder otherErrClient "docs").err = some ⟨553⟩ := by
  constructor
  · exact ((delete_notFound_tolerated notFoundClient (fun _ => rfl) rfl).1
      "c.txt" "c.txt" ⟨550⟩ (by decide) rfl).trans (by decide)
  · exact ((delete_notFound_tolerated otherErrClient (fun _ => rfl) rfl).2
      "docs" ["docs"] ⟨553⟩ (by decide) rfl).trans (by decide)

/-! ## Deploy-level claims: bootstrap, error swallowing, local state write -/

theorem deploy_result_ok (c : Client) (args : IFtpDeployArguments)
    (localFiles : IFileList) (now : Nat) :
    (deploy c args localFiles now).result = Except.ok () := by
  cases hconn : c.connect with
  | some e => simp [deploy, hconn]
  | none =>
    simp only [deploy, hconn]
    cases (syncPhases c (getDiffs localFiles
        (resolveServerFiles c args.dangerousCleanSlate args.stateName now).1)
        args.stateName).err with
    | none => rfl
    | some e => by_cases h : e.code = 553 <;> simp [h]

/-- C3: whenever the clean-slate flag is set or the previous state document
cannot be fetched/decoded, the previous inventory used by the run is the
empty inventory, and the run goes on to diff and apply the sync phases
against that empty previous state (and still settles successfully). -/
theorem bootstrap_empty_previous (c : Client) (args : IFtpDeployArguments)
    (localFiles : IFileList) (now : Nat)
    (hconn : c.connect = none)
    (h : args.dangerousCleanSlate = true ∨ c.download = none) :
    (resolveServerFiles c args.dangerousCleanSlate args.stateName now).1 =
      emptyServerState now ∧
    (emptyServerState now).data = [] ∧
    (deploy c args localFiles now).result = Except.ok () ∧
    ∃ tail,
      (deploy c args localFiles now).trace =
        [Effect.localWrite args.stateName localFiles, Effect.connect] ++
        ((resolveServerFiles c args.dangerousCleanSlate args.stateName now).2 ++
        ((syncPhases c (getDiffs localFiles (emptyServerState now))
          args.stateName).trace ++ tail)) := by
  have hsf : (resolveServerFiles c args.dangerousCleanSlate args.stateName now).1 =
      emptyServerState now := by
    cases hcs : args.dangerousCleanSlate with
    | true => simp [resolveServerFiles]
    | false =>
      rcases h with h | h
      · exact absurd (hcs ▸ h) (by simp)
      · simp [resolveServerFiles, h]
  refine ⟨hsf, rfl, deploy_result_ok c args localFiles now, ?_⟩
  simp only [deploy, hconn, hsf]
  cases herr : (syncPhases c (getDiffs localFiles (emptyServerState now))
      args.stateName).err with
  | none => exact ⟨[Effect.closeClient], by simp⟩
  | some e =>
    by_cases h553 : e.code = 553
    · exact ⟨[], by simp [h553]⟩
    · exact ⟨[Effect.closeClient], by simp [h553]⟩

/-- Witness for C3: with no fetchable state document, the run proceeds
against the empty previous inventory. -/
theorem bootstrap_empty_previous_witness :
    (resolveServerFiles allOkClient sampleArgs.dangerousCleanSlate
      sampleArgs.stateName 7).1 = emptyServerState 7 ∧
    (emptyServerState 7).data = [] ∧
    (deploy allOkClient sampleArgs sampleLocal 7).result = Except.ok () ∧
    ∃ tail,
      (deploy allOkClient sampleArgs sampleLocal 7).trace =
        [Effect.localWrite sampleArgs.stateName sampleLocal, Effect.connect] ++
        ((resolveServerFiles allOkClient sampleArgs.dangerousCleanSlate
          sampleArgs.stateName 7).2 ++
        ((syncPhases allOkClient (getDiffs sampleLocal (emptyServerState 7))
          sampleArgs.stateName).trace ++ tail)) :=
  bootstrap_empty_previous allOkClient sampleArgs sampleLocal 7 rfl (Or.inr rfl)

/-- C6 counterexample: a fatal connection failure does not propagate to the
run result — `deploy` settles successfully (its promise resolves) even though
the connection attempt failed with error 421; the failure is only logged. -/
theorem error_propagation_counterexample :
    failConnectClient.connect = some ⟨421⟩ ∧
    (deploy failConnectClient sampleArgs sampleLocal 0).result = Except.ok () ∧
    (deploy failConnectClient sampleArgs sampleLocal 0).warned = true := by
  exact ⟨rfl, rfl, rfl⟩

/-- C6 (amended): every fatal condition — connection failure or a fatal
transfer error in the phases — is caught inside `deploy` and surfaced only as
a warn log: `deploy` always settles successfully, and a warning is logged
exactly when the connection failed or the phases aborted fatally. -/
theorem deploy_swallows_errors (c : Client) (args : IFtpDeployArguments)
    (localFiles : IFileList) (now : Nat) :
    (deploy c args localFiles now).result = Except.ok () ∧
    ((deploy c args localFiles now).warned = true ↔
      (c.connect ≠ none ∨
        (syncPhases c (getDiffs localFiles
          (resolveServerFiles c args.dangerousCleanSlate args.stateName now).1)
          args.stateName).err ≠ none)) := by
  refine ⟨deploy_result_ok c args localFiles now, ?_⟩
  cases hconn : c.connect with
  | some e => simp [deploy, hconn]
  | none =>
    simp only [deploy, hconn]
    cases herr : (syncPhases c (getDiffs localFiles
        (resolveServerFiles c args.dangerousCleanSlate args.stateName now).1)
        args.stateName).err with
    | none => simp [hconn, herr]
    | some e =>
      by_cases h553 : e.code = 553 <;> simp [hconn, herr, h553]

/-- C10: on every run, the very first effects are the write of the freshly
built local inventory to the local file named by the state-name argument,
followed by the connection attempt — so the local state file is written even
when the connection or any later phase fails. -/
theorem local_state_written_before_connect (c : Client) (args : IFtpDeployArguments)
    (localFiles : IFileList) (now : Nat) :
    (deploy c args localFiles now).trace.take 2 =
      [Effect.localWrite args.stateName localFiles, Effect.connect] := by
  cases hconn : c.connect with
  | some e => simp [deploy, hconn]
  | none =>
    simp only [deploy, hconn]
    cases herr : (syncPhases c (getDiffs localFiles
        (resolveServerFiles c args.dangerousCleanSlate args.stateName now).1)
        args.stateName).err with
    | none => simp
    | some e => by_cases h553 : e.code = 553 <;> simp [h553]

/-! ## Filter, hasher and diff claims -/

/-- C7: the inventory filter drops a path exactly when the path matches some
exclude pattern; in every other case — include patterns configured or not,
matched or not — the entry is kept.  In particular failing to match a
configured include pattern never drops an entry. -/
theorem includeExcludeFilter_spec (mm : String → List String → List String)
    (statPath : String) (args : IFtpDeployArguments) :
    includeExcludeFilter mm statPath args = false ↔
      ∃ ex, args.exclude = some ex ∧ (mm statPath ex).length > 0 := by
  cases hex : args.exclude with
  | none =>
    cases hinc : args.includePatterns with
    | none => simp [includeExcludeFilter, hex, hinc]
    | some incl => simp [includeExcludeFilter, hex, hinc]
  | some ex =>
    by_cases hm : (mm statPath ex).length > 0
    · simp [includeExcludeFilter, hex, hm]
    · cases hinc : args.includePatterns with
      | none => simp [includeExcludeFilter, hex, hinc, hm]
      | some incl => simp [includeExcludeFilter, hex, hinc, hm]

theorem runStream_eq (digest : List Nat → String) (acc : List Nat)
    (evs : List StreamEvent) :
    runStream digest acc evs =
      (if endsCleanly evs = true then
        PromiseOutcome.resolved (digest (acc ++ chunksBeforeStop evs))
      else PromiseOutcome.unsettled) := by
  induction evs generalizing acc with
  | nil => simp [runStream, endsCleanly]
  | cons e rest ih =>
    cases e with
    | data chunk =>
      simp [runStream, endsCleanly, chunksBeforeStop, ih, List.append_assoc]
    | endEv => simp [runStream, endsCleanly, chunksBeforeStop]
    | errorEv => simp [runStream, endsCleanly, chunksBeforeStop]

/-- C8 counterexample: a read error after one data chunk settles nothing —
`fileHash` installed no "error" handler, so the promise neither resolves
with a digest nor rejects with the hash failure; the result stays
unsettled. -/
theorem hash_unsettled_counterexample :
    fileHash (fun _ => "d41d8cd9")
      (Except.ok [StreamEvent.data [1], StreamEvent.errorEv]) =
      PromiseOutcome.unsettled := rfl

/-- C8 (amended): `fileHash` resolves with the digest of exactly the chunks
received before a clean end of stream — never a partial digest — and rejects
with "calc fail" precisely when opening the stream throws synchronously; but
when the stream errors before ending, the promise never settles, because no
error handler is installed. -/
theorem fileHash_settles (digest : List Nat → String) (evs : List StreamEvent)
    (s : String) :
    fileHash digest (Except.error s) = PromiseOutcome.rejected "calc fail" ∧
    (endsCleanly evs = true →
      fileHash digest (Except.ok evs) =
        PromiseOutcome.resolved (digest (chunksBeforeStop evs))) ∧
    (endsCleanly evs = false →
      fileHash digest (Except.ok evs) = PromiseOutcome.unsettled) := by
  refine ⟨rfl, ?_, ?_⟩
  · intro h
    show runStream digest [] evs = _
    rw [runStream_eq, if_pos h, List.nil_append]
  · intro h
    show runStream digest [] evs = _
    rw [runStream_eq, if_neg (by rw [h]; exact Bool.false_ne_true)]

/-- Witness for C8 (amended): a stream delivering two chunks then ending
cleanly resolves with the digest of both chunks. -/
theorem fileHash_settles_witness :
    endsCleanly [StreamEvent.data [2], StreamEvent.data [3], StreamEvent.endEv] = true ∧
    fileHash (fun _ => "h")
      (Except.ok [StreamEvent.data [2], StreamEvent.data [3], StreamEvent.endEv]) =
      PromiseOutcome.resolved "h" :=
  ⟨by decide,
   (fileHash_settles (fun _ => "h")
     [StreamEvent.data [2], StreamEvent.data [3], StreamEvent.endEv] "x").2.1 (by decide)⟩

theorem classifyPath_self (l : List Record) (p : String) :
    classifyPath l l p = ([], [], []) := by
  cases h : findRec l p with
  | none => simp [classifyPath, h]
  | some r =>
    cases ht : r.type with
    | file => simp [classifyPath, h, ht]
    | folder => simp [classifyPath, h, ht]

/-- C9: diffing an inventory against itself yields the empty edit script —
all three lists empty, all three byte totals zero. -/
theorem diff_self_empty (I : IFileList) : getDiffs I I = ⟨[], [], [], 0, 0, 0⟩ := by
  have h1 : ∀ ks : List String,
      (((ks.map (classifyPath I.data I.data)).map (fun t => t.1)).flatten : List Record) = [] := by
    intro ks
    induction ks with
    | nil => rfl
    | cons k ks ih => simp [classifyPath_self, ih]
  have h2 : ∀ ks : List String,
      (((ks.map (classifyPath I.data I.data)).map (fun t => t.2.1)).flatten : List Record) = [] := by
    intro ks
    induction ks with
    | nil => rfl
    | cons k ks ih => simp [classifyPath_self, ih]
  have h3 : ∀ ks : List String,
      (((ks.map (classifyPath I.data I.data)).map (fun t => t.2.2)).flatten : List Record) = [] := by
    intro ks
    induction ks with
    | nil => rfl
    | cons k ks ih => simp [classifyPath_self, ih]
  simp only [getDiffs]
  rw [h1, h2, h3]
  rfl

end FtpDeploy
